import Mathlib

set_option maxHeartbeats 1000000

namespace Bazaar

/-! Shallow embedding of the hio package (src/unnamed/part_000): the serving
configuration (ServeConfig, its options and validation), the Router with
grouped middleware slices over an explicit backing store, the Responder and
self-continuing handler chain, and the trailing-slash middleware.
Go int and time.Duration (int64 nanoseconds) are modelled as Int; the
operations embedded here never overflow int64, so no 2^64 reduction is
needed. Errors (Go error values) are modelled as an inductive GoErr. -/

/-- Go time.Second in nanoseconds. -/
def Second : Int := 1000000000

/-- Go time.Minute in nanoseconds. -/
def Minute : Int := 60 * Second

/-- Constant _defaultPort (line 22 of the source). -/
def _defaultPort : Int := 8080

/-- Constant _defaultIdleTimeout = 1 * time.Minute (line 23). -/
def _defaultIdleTimeout : Int := 1 * Minute

/-- Constant _defaultReadTimeout = 5 * time.Second (line 24). -/
def _defaultReadTimeout : Int := 5 * Second

/-- Constant _defaultWriteTimeout = 10 * time.Second (line 25). -/
def _defaultWriteTimeout : Int := 10 * Second

/-- Constant _defaultShutdownTimeout = 10 * time.Second (line 26). -/
def _defaultShutdownTimeout : Int := 10 * Second

/-- A Go error value: either a plain message (errors.New) or a message
wrapping an inner error (fmt.Errorf with %w). -/
inductive GoErr where
  | str (msg : String)
  | wrap (format : String) (inner : GoErr)
deriving DecidableEq

/-- A parsed TLS certificate (tls.Certificate), identified abstractly. -/
structure TLSCert where
  certId : Nat
deriving DecidableEq

/-- Bytes read from the CA file (os.ReadFile result). -/
structure CABytes where
  bytes : List Nat
deriving DecidableEq

/-- tls.RequireAndVerifyClientCert. -/
def RequireAndVerifyClientCert : Nat := 4

/-- tls.VersionTLS12. -/
def VersionTLS12 : Nat := 771

/-- The tls.Config value built by WithTLS (lines 238-244): client auth mode,
certificate list, client CA pool (modelled as the appended CA bytes),
minimum version, and ALPN protocols. -/
structure TLSConfig where
  ClientAuth : Nat
  Certificates : List TLSCert
  ClientCAs : List CABytes
  MinVersion : Nat
  NextProtos : List String
deriving DecidableEq

/-- ServeConfig (lines 70-80). ErrorLog (*log.Logger) is modelled as an
opaque handle; TLS and the unexported deferred error slot tlsErr are
Options standing for nilable Go pointers/interfaces. -/
structure ServeConfig where
  Host : String
  Port : Int
  IdleTimeout : Int
  ReadTimeout : Int
  WriteTimeout : Int
  ShutdownTimeout : Int
  ErrorLog : Option Nat
  TLS : Option TLSConfig
  tlsErr : Option GoErr
deriving DecidableEq

/-- The Go zero value of ServeConfig (var cfg ServeConfig, line 30). -/
def zeroServeConfig : ServeConfig :=
  { Host := "", Port := 0, IdleTimeout := 0, ReadTimeout := 0,
    WriteTimeout := 0, ShutdownTimeout := 0, ErrorLog := none,
    TLS := none, tlsErr := none }

/-- DefaultServeConfig (lines 83-91). -/
def DefaultServeConfig : ServeConfig :=
  { zeroServeConfig with
    Port := _defaultPort,
    IdleTimeout := _defaultIdleTimeout,
    ReadTimeout := _defaultReadTimeout,
    WriteTimeout := _defaultWriteTimeout,
    ShutdownTimeout := _defaultShutdownTimeout }

/-- ServeConfig.Override (lines 97-121): the receiver is mutated in place in
Go; here the updated receiver is returned. Each non-zero field of other
replaces the receiver's field; ErrorLog, TLS and tlsErr are not touched. -/
def Override (c other : ServeConfig) : ServeConfig :=
  let c1 := if other.Host ≠ "" then { c with Host := other.Host } else c
  let c2 := if other.Port ≠ 0 then { c1 with Port := other.Port } else c1
  let c3 := if other.IdleTimeout ≠ 0 then { c2 with IdleTimeout := other.IdleTimeout } else c2
  let c4 := if other.ReadTimeout ≠ 0 then { c3 with ReadTimeout := other.ReadTimeout } else c3
  let c5 := if other.WriteTimeout ≠ 0 then { c4 with WriteTimeout := other.WriteTimeout } else c4
  if other.ShutdownTimeout ≠ 0 then { c5 with ShutdownTimeout := other.ShutdownTimeout } else c5

/-- ServeConfig.setDefaultZeroValues (lines 154-174). -/
def setDefaultZeroValues (c : ServeConfig) : ServeConfig :=
  let c1 := if c.Port ≤ 0 then { c with Port := _defaultPort } else c
  let c2 := if c1.IdleTimeout ≤ 0 then { c1 with IdleTimeout := _defaultIdleTimeout } else c1
  let c3 := if c2.ReadTimeout ≤ 0 then { c2 with ReadTimeout := _defaultReadTimeout } else c2
  let c4 := if c3.WriteTimeout ≤ 0 then { c3 with WriteTimeout := _defaultWriteTimeout } else c3
  if c4.ShutdownTimeout ≤ 0 then { c4 with ShutdownTimeout := _defaultShutdownTimeout } else c4

/-- ServeConfig.Validate (lines 124-152): mutates the receiver via
setDefaultZeroValues, then returns the first failing check's error.
Modelled as returning the mutated receiver together with the error. -/
def Validate (c : ServeConfig) : ServeConfig × Option GoErr :=
  let c := setDefaultZeroValues c
  if c.Port ≤ 0 then (c, some (.str "port must be greater than 0"))
  else if c.IdleTimeout ≤ 0 then (c, some (.str "idle timeout must be greater than 0"))
  else if c.ReadTimeout ≤ 0 then (c, some (.str "read timeout must be greater than 0"))
  else if c.WriteTimeout ≤ 0 then (c, some (.str "write timeout must be greater than 0"))
  else if c.ShutdownTimeout ≤ 0 then (c, some (.str "shutdown timeout must be greater than 0"))
  else
    match c.tlsErr with
    | some e => (c, some (.wrap "tls must be configured correctly if provided: %w" e))
    | none => (c, none)

theorem setDefaultZeroValues_Port_pos (c : ServeConfig) :
    ¬ (setDefaultZeroValues c).Port ≤ 0 := by
  simp only [setDefaultZeroValues, _defaultPort]
  split_ifs <;> simp_all

theorem setDefaultZeroValues_Idle_pos (c : ServeConfig) :
    ¬ (setDefaultZeroValues c).IdleTimeout ≤ 0 := by
  simp only [setDefaultZeroValues, _defaultIdleTimeout, Minute, Second]
  split_ifs <;> simp_all

theorem setDefaultZeroValues_Read_pos (c : ServeConfig) :
    ¬ (setDefaultZeroValues c).ReadTimeout ≤ 0 := by
  simp only [setDefaultZeroValues, _defaultReadTimeout, Second]
  split_ifs <;> simp_all

theorem setDefaultZeroValues_Write_pos (c : ServeConfig) :
    ¬ (setDefaultZeroValues c).WriteTimeout ≤ 0 := by
  simp only [setDefaultZeroValues, _defaultWriteTimeout, Second]
  split_ifs <;> simp_all

theorem setDefaultZeroValues_Shutdown_pos (c : ServeConfig) :
    ¬ (setDefaultZeroValues c).ShutdownTimeout ≤ 0 := by
  simp only [setDefaultZeroValues, _defaultShutdownTimeout, Second]
  split_ifs <;> simp_all

theorem setDefaultZeroValues_tlsErr (c : ServeConfig) :
    (setDefaultZeroValues c).tlsErr = c.tlsErr := by
  simp only [setDefaultZeroValues]
  split_ifs <;> rfl

/-- The error component of Validate is exactly the wrapped deferred TLS
error: every numeric rejection branch is dead after the backfill. -/
theorem Validate_snd_eq (c : ServeConfig) :
    (Validate c).2 =
      (c.tlsErr).map (GoErr.wrap "tls must be configured correctly if provided: %w") := by
  simp only [Validate, setDefaultZeroValues_Port_pos, setDefaultZeroValues_Idle_pos,
    setDefaultZeroValues_Read_pos, setDefaultZeroValues_Write_pos,
    setDefaultZeroValues_Shutdown_pos, if_false, setDefaultZeroValues_tlsErr]
  cases c.tlsErr <;> rfl

/-- ServeOption (lines 177-194): the closed variant set of option records.
Each variant carries exactly the data of the corresponding Go struct. -/
inductive ServeOption where
  | host (value : String)
  | port (value : Int)
  | idleTimeout (value : Int)
  | readTimeout (value : Int)
  | writeTimeout (value : Int)
  | shutdownTimeout (value : Int)
  | tls (value : Option TLSConfig) (err : Option GoErr)
  | config (value : ServeConfig)
  | options (value : List ServeOption)

mutual

/-- The apply methods of the option variants (lines 248-260). -/
def applyOpt : ServeOption → ServeConfig → ServeConfig
  | .host v, c => { c with Host := v }
  | .port v, c => { c with Port := v }
  | .idleTimeout v, c => { c with IdleTimeout := v }
  | .readTimeout v, c => { c with ReadTimeout := v }
  | .writeTimeout v, c => { c with WriteTimeout := v }
  | .shutdownTimeout v, c => { c with ShutdownTimeout := v }
  | .tls v e, c => { c with TLS := v, tlsErr := e }
  | .config v, c => Override c v
  | .options vs, c => applyOpts vs c

/-- The loop body of configOptions.apply (lines 256-260). -/
def applyOpts : List ServeOption → ServeConfig → ServeConfig
  | [], c => c
  | o :: os, c => applyOpts os (applyOpt o c)

end

/-- WithTLS (lines 221-246). File loading and PEM parsing are I/O performed
by the Go standard library; the embedding takes their outcomes as inputs:
the result of tls.LoadX509KeyPair, the result of os.ReadFile on the CA
file, and whether pool.AppendCertsFromPEM succeeds on those bytes. The
control flow and the constructed option values follow the source. -/
def WithTLS (loadPair : Except GoErr TLSCert) (readCAFile : Except GoErr CABytes)
    (appendOk : CABytes → Bool) : ServeOption :=
  match loadPair with
  | .error e => .tls none (some e)
  | .ok ce =>
    match readCAFile with
    | .error e => .tls none (some e)
    | .ok ca =>
      if appendOk ca then
        .tls (some { ClientAuth := RequireAndVerifyClientCert,
                     Certificates := [ce],
                     ClientCAs := [ca],
                     MinVersion := VersionTLS12,
                     NextProtos := ["h2", "http/1.1"] }) none
      else .tls none (some (.str "unable to append certs from PEM"))

/-- WithTLS fails to load its material: the key pair fails to parse, the CA
file fails to read, or the PEM bytes cannot be appended to the pool. -/
def tlsLoadFails (loadPair : Except GoErr TLSCert) (readCAFile : Except GoErr CABytes)
    (appendOk : CABytes → Bool) : Prop :=
  match loadPair with
  | .error _ => True
  | .ok _ =>
    match readCAFile with
    | .error _ => True
    | .ok ca => appendOk ca = false

/-- C9: Validate on the zero-valued ServeConfig succeeds and backfills every
timeout and the port with its documented default, yielding exactly the
value of DefaultServeConfig: port 8080, idle timeout 1 minute, read
timeout 5 seconds, write timeout 10 seconds, shutdown timeout 10 seconds. -/
theorem C9_validate_zero_defaults :
    Validate zeroServeConfig = (DefaultServeConfig, none)
    ∧ DefaultServeConfig.Port = 8080
    ∧ DefaultServeConfig.IdleTimeout = 1 * Minute
    ∧ DefaultServeConfig.ReadTimeout = 5 * Second
    ∧ DefaultServeConfig.WriteTimeout = 10 * Second
    ∧ DefaultServeConfig.ShutdownTimeout = 10 * Second := by
  refine ⟨?_, by decide, by decide, by decide, by decide, by decide⟩
  decide

/-- C10: Validate rejects a configuration exactly when the deferred TLS
error slot is set; since setDefaultZeroValues backfills every non-positive
port and timeout first, the numeric rejection branches are unreachable and
no configuration without a deferred TLS error is rejected. -/
theorem C10_validate_error_iff_tlsErr (c : ServeConfig) :
    (Validate c).2 = none ↔ c.tlsErr = none := by
  rw [Validate_snd_eq]
  cases c.tlsErr <;> simp

/-- C6 counterexample: the claim says every field of the receiver whose
value in other is non-zero ends up equal to other's value, but Override
never copies the TLS field (nor ErrorLog nor tlsErr): with a receiver whose
TLS is nil and an other whose TLS is non-nil, the receiver's TLS stays nil. -/
theorem C6_counterexample :
    ({ zeroServeConfig with TLS := some ⟨4, [], [], 771, []⟩ } : ServeConfig).TLS ≠ none
    ∧ (Override zeroServeConfig
        { zeroServeConfig with TLS := some ⟨4, [], [], 771, []⟩ }).TLS = none
    ∧ (Override zeroServeConfig
        { zeroServeConfig with TLS := some ⟨4, [], [], 771, []⟩ }).TLS ≠
      ({ zeroServeConfig with TLS := some ⟨4, [], [], 771, []⟩ } : ServeConfig).TLS := by
  refine ⟨by decide, by decide, by decide⟩

/-- C6 amended: Override copies the non-zero fields of other onto the
receiver for the six fields it handles (Host, Port and the four timeouts),
keeps the receiver's value wherever other is zero-valued, never touches
ErrorLog, TLS or the deferred error slot, and is a no-op when other is the
zero-valued configuration. -/
theorem C6_override_nonzero_fields (c other : ServeConfig) :
    (Override c other).Host = (if other.Host ≠ "" then other.Host else c.Host)
    ∧ (Override c other).Port = (if other.Port ≠ 0 then other.Port else c.Port)
    ∧ (Override c other).IdleTimeout =
        (if other.IdleTimeout ≠ 0 then other.IdleTimeout else c.IdleTimeout)
    ∧ (Override c other).ReadTimeout =
        (if other.ReadTimeout ≠ 0 then other.ReadTimeout else c.ReadTimeout)
    ∧ (Override c other).WriteTimeout =
        (if other.WriteTimeout ≠ 0 then other.WriteTimeout else c.WriteTimeout)
    ∧ (Override c other).ShutdownTimeout =
        (if other.ShutdownTimeout ≠ 0 then other.ShutdownTimeout else c.ShutdownTimeout)
    ∧ (Override c other).ErrorLog = c.ErrorLog
    ∧ (Override c other).TLS = c.TLS
    ∧ (Override c other).tlsErr = c.tlsErr
    ∧ Override c zeroServeConfig = c := by
  unfold Override
  constructor
  · split_ifs <;> rfl
  constructor
  · split_ifs <;> rfl
  constructor
  · split_ifs <;> rfl
  constructor
  · split_ifs <;> rfl
  constructor
  · split_ifs <;> rfl
  constructor
  · split_ifs <;> rfl
  constructor
  · split_ifs <;> rfl
  constructor
  · split_ifs <;> rfl
  constructor
  · split_ifs <;> rfl
  · simp [zeroServeConfig]

/-- C7: when WithTLS's file loading or certificate parsing fails, option
construction still returns an option value carrying the error; applying
that option to any ServeConfig stores the error into the deferred tlsErr
slot, and Validate on the resulting config returns an error. -/
theorem C7_withTLS_deferred_error (loadPair : Except GoErr TLSCert)
    (readCAFile : Except GoErr CABytes) (appendOk : CABytes → Bool)
    (cfg : ServeConfig) (h : tlsLoadFails loadPair readCAFile appendOk) :
    ∃ e : GoErr,
      WithTLS loadPair readCAFile appendOk = ServeOption.tls none (some e)
      ∧ (applyOpt (WithTLS loadPair readCAFile appendOk) cfg).tlsErr = some e
      ∧ (Validate (applyOpt (WithTLS loadPair readCAFile appendOk) cfg)).2 ≠ none := by
  have key : ∃ e : GoErr, WithTLS loadPair readCAFile appendOk = ServeOption.tls none (some e) := by
    cases loadPair with
    | error e => exact ⟨e, rfl⟩
    | ok ce =>
      cases readCAFile with
      | error e => exact ⟨e, rfl⟩
      | ok ca =>
        refine ⟨.str "unable to append certs from PEM", ?_⟩
        simp only [tlsLoadFails] at h
        simp [WithTLS, h]
  obtain ⟨e, he⟩ := key
  refine ⟨e, he, ?_, ?_⟩
  · rw [he]; rfl
  · rw [he]
    have happ : (applyOpt (ServeOption.tls none (some e)) cfg).tlsErr = some e := rfl
    rw [Validate_snd_eq, happ]
    simp

/-- C7 witness: a concrete run in which loading the key pair fails with a
missing-file error; the hypothesis and the conclusion are discharged at
this input. -/
theorem C7_witness :
    tlsLoadFails (.error (.str "open server.crt: no such file or directory"))
      (.ok ⟨[1]⟩) (fun _ => true)
    ∧ ∃ e : GoErr,
      WithTLS (.error (.str "open server.crt: no such file or directory"))
          (.ok ⟨[1]⟩) (fun _ => true) = ServeOption.tls none (some e)
      ∧ (applyOpt (WithTLS (.error (.str "open server.crt: no such file or directory"))
          (.ok ⟨[1]⟩) (fun _ => true)) zeroServeConfig).tlsErr = some e
      ∧ (Validate (applyOpt (WithTLS (.error (.str "open server.crt: no such file or directory"))
          (.ok ⟨[1]⟩) (fun _ => true)) zeroServeConfig)).2 ≠ none :=
  ⟨trivial,
   C7_withTLS_deferred_error (.error (.str "open server.crt: no such file or directory"))
     (.ok ⟨[1]⟩) (fun _ => true) zeroServeConfig trivial⟩

/-- Go strings.TrimLeft with a one-character cutset, on character lists. -/
def trimLeftChar (l : List Char) (c : Char) : List Char :=
  l.dropWhile (fun x => x = c)

/-- Go strings.TrimRight with a one-character cutset, on character lists. -/
def trimRightChar (l : List Char) (c : Char) : List Char :=
  (l.reverse.dropWhile (fun x => x = c)).reverse

/-- Go strings.TrimLeft(s, string(c)). -/
def goTrimLeft (s : String) (c : Char) : String := ⟨trimLeftChar s.toList c⟩

/-- Go strings.TrimRight(s, string(c)). -/
def goTrimRight (s : String) (c : Char) : String := ⟨trimRightChar s.toList c⟩

/-- Go strings.Trim(s, string(c)). -/
def goTrim (s : String) (c : Char) : String := goTrimRight (goTrimLeft s c) c

/-- Go strings.HasSuffix(s, string(c)) for a one-character suffix: the
last character of s equals c. -/
def hasSuffixChar (s : String) (c : Char) : Bool :=
  match s.toList.getLast? with
  | some x => x = c
  | none => false

/-- Router.wrap (lines 368-375): h is rewrapped by each middleware of the
router's list, iterating the list backward (slices.Backward), so the loop
applies the last-added middleware first. Middlewares and handlers are kept
abstract: a middleware is a function on handlers of any type. -/
def wrap {α : Type} (mws : List (α → α)) (h : α) : α :=
  if 0 < mws.length then
    mws.reverse.foldl (fun acc mw => mw acc) h
  else h

/-- A tracing middleware over handlers acting on an event trace: it records
an entry event before the inner handler and an exit event after it. -/
def traceMw (tag : String) : (List String → List String) → List String → List String :=
  fun h t => h (t ++ [tag ++ ":pre"]) ++ [tag ++ ":post"]

/-- A terminal tracing handler recording one event. -/
def traceBase : List String → List String := fun t => t ++ ["handler"]

/-- C1: wrap composes the router's middleware list with the first-added
middleware outermost, wrap(h) = m1 (m2 (... (mn h))); consequently for the
list [A, B] the instrumented run observes A's pre-processing before B's and
B's post-processing after A's is still pending (onion order). -/
theorem C1_wrap_onion_order {α : Type} (mws : List (α → α)) (hd : α) :
    wrap mws hd = mws.foldr (fun mw acc => mw acc) hd
    ∧ wrap [traceMw "A", traceMw "B"] traceBase []
        = ["A:pre", "B:pre", "handler", "B:post", "A:post"] := by
  constructor
  · cases mws with
    | nil => rfl
    | cons m ms => simp [wrap, List.foldl_reverse]
  · rfl

/-- An HTTP request as the embedded middleware observes it: the URL path
and the raw query string. -/
structure Request where
  path : String
  rawQuery : String
deriving DecidableEq

/-- http.StatusPermanentRedirect. -/
def StatusPermanentRedirect : Nat := 308

/-- What a middleware invocation does with a request: respond with a
redirect (recording the Location target, the status code and whether the
Content-Type header was cleared first), invoke the wrapped inner handler,
or fall off the end of the function body without doing either (the Go
default: an empty 200 response). -/
inductive MwOutcome (α : Type) where
  | redirected (location : String) (code : Nat) (contentTypeCleared : Bool)
  | passed (result : α)
  | fellThrough
deriving DecidableEq

set_option linter.unusedVariables false in
/-- TrailingSlashRedirector (lines 475-487). The source's non-redirect
branch ends the function body without calling next, so the wrapped inner
handler is never invoked: the translation returns fellThrough there, never
passed. -/
def TrailingSlashRedirector {α : Type} (next : Request → α) (r : Request) : MwOutcome α :=
  if r.path ≠ "/" ∧ hasSuffixChar r.path '/' = true then
    let path := goTrimRight r.path '/'
    let path := if r.rawQuery ≠ "" then path ++ "?" ++ r.rawQuery else path
    .redirected path StatusPermanentRedirect true
  else
    .fellThrough

/-- C2: evaluating TrailingSlashRedirector. A request for "/users/" with a
query is permanently redirected to "/users?a=1" with Content-Type cleared,
and "/" is not redirected — but a request that should pass through
unchanged ("/users", no trailing slash) never reaches the wrapped inner
handler: the Go function body simply returns, producing an empty response,
instead of invoking next. -/
theorem C2_trailing_slash_swallows_passthrough :
    TrailingSlashRedirector (fun r => r.path) { path := "/users/", rawQuery := "a=1" }
      = .redirected "/users?a=1" StatusPermanentRedirect true
    ∧ TrailingSlashRedirector (fun r => r.path) { path := "/users/", rawQuery := "" }
      = .redirected "/users" StatusPermanentRedirect true
    ∧ TrailingSlashRedirector (fun r => r.path) { path := "/", rawQuery := "" }
      = .fellThrough
    ∧ TrailingSlashRedirector (fun r => r.path) { path := "/users", rawQuery := "" }
      = .fellThrough
    ∧ TrailingSlashRedirector (fun r => r.path) { path := "/users", rawQuery := "" }
      ≠ .passed "/users" := by
  refine ⟨by decide, by decide, by decide, by decide, by decide⟩

/-- The dispatch-table key computed by Router.handle (line 378):
method + " " + TrimRight(prefix + "/" + Trim(pattern, "/"), "/"). -/
def handleKey (method pfx pattern : String) : String :=
  method ++ " " ++ goTrimRight (pfx ++ "/" ++ goTrim pattern '/') '/'

/-- C4: the key registered by handle. For a group prefix and a pattern the
redundant slashes are trimmed and the trailing slash stripped — but the
trailing-slash strip has no root exception: registering pattern "/" on a
router with empty prefix yields a key whose path part is empty ("GET "),
not "/" as the claim states. -/
theorem C4_root_pattern_key_empty :
    handleKey "GET" "" "/" = "GET "
    ∧ handleKey "GET" "" "/" ≠ "GET /"
    ∧ handleKey "GET" "/api" "users/" = "GET /api/users"
    ∧ handleKey "GET" "/api" "/users" = "GET /api/users" := by
  refine ⟨by decide, by decide, by decide, by decide⟩

/-- The observable state of an http.ResponseWriter together with the error
log sink used by the logging responder: response headers, the written
status line, the body chunks written so far, and the errors the injected
callback has recorded. -/
structure RespState where
  headers : List (String × String)
  status : Option Nat
  body : List String
  errLog : List GoErr
deriving DecidableEq

/-- Handler (line 288): a chainable handler is a function of the response
writer and request returning either the next handler to run or nil. -/
inductive Handler where
  | mk : (Request → RespState → RespState × Option Handler) → Handler

/-- Invoke a handler once. -/
def Handler.run : Handler → Request → RespState → RespState × Option Handler
  | .mk f, r, s => f r s

/-- Handler.ServeHTTP (lines 291-295): run the chain until a handler
returns nil. The Go loop is unbounded; it is embedded with explicit fuel,
which suffices for every finite chain. -/
def Handler.serve : Nat → Handler → Request → RespState → RespState
  | 0, _, _, s => s
  | fuel + 1, h, r, s =>
    match h.run r s with
    | (s1, none) => s1
    | (s1, some nxt) => Handler.serve fuel nxt r s1

/-- Responder (line 382): holds the single injected error callback. -/
structure Responder where
  err : GoErr → Handler

/-- NewResponder (line 386). -/
def NewResponder (err : GoErr → Handler) : Responder := ⟨err⟩

/-- NewErrorLoggingResponder (lines 389-396): the callback invokes the
supplied logging function with the request, the logger and the error, then
terminates the chain. The logger is an opaque handle. -/
def NewErrorLoggingResponder (l : Nat)
    (fn : Request → Nat → GoErr → RespState → RespState) : Responder :=
  ⟨fun e => .mk (fun r s => (fn r l e s, none))⟩

/-- Responder.Error (lines 399-401): formats the error (fmt.Errorf with a
%w verb wrapping the argument) and hands it to the injected callback. -/
def Responder.Error (rs : Responder) (format : String) (arg : GoErr) : Handler :=
  rs.err (.wrap format arg)

/-- Go http.Header.Set: replace any existing entries for the key. -/
def setHeaderList (hs : List (String × String)) (k v : String) : List (String × String) :=
  (k, v) :: hs.filter (fun p => p.1 ≠ k)

/-- A value passed to json.Marshal: the embedded fragment of Go values,
including a tag for values json cannot serialize (channels, functions,
cyclic data). -/
inductive JValue where
  | null
  | num (n : Int)
  | str (s : String)
  | unsupported (tag : String)
deriving DecidableEq

/-- json.Marshal on the embedded values: serializable values produce their
encoding, unsupported values produce an error, as encoding/json does. -/
def marshal : JValue → Except GoErr String
  | .null => .ok "null"
  | .num n => .ok (toString n)
  | .str s => .ok ("\"" ++ s ++ "\"")
  | .unsupported tag => .error (.str ("json: unsupported type: " ++ tag))

/-- Responder.JSON (lines 422-433): marshal first; on failure return the
Error handler without touching the response; on success return a handler
that sets Content-Type, writes the status and writes the data. -/
def Responder.JSON (rs : Responder) (code : Nat) (v : JValue) : Handler :=
  match marshal v with
  | .error e => rs.Error "encoding JSON: %w" e
  | .ok data =>
    .mk (fun _ s =>
      ({ s with
          headers := setHeaderList s.headers "Content-Type" "application/json",
          status := some code,
          body := s.body ++ [data] }, none))

/-- C8: when serialization fails, JSON returns exactly the handler produced
by Error with the wrapped serialization error and writes nothing; running
that handler under the logging responder yields precisely one invocation of
the injected callback on the untouched response state, so no header,
status or body write precedes the callback. -/
theorem C8_json_error_no_write (v : JValue) (e : GoErr) (hm : marshal v = .error e)
    (code : Nat) (cb : GoErr → Handler) (l : Nat)
    (fn : Request → Nat → GoErr → RespState → RespState)
    (r : Request) (s : RespState) (fuel : Nat) :
    Responder.JSON (NewResponder cb) code v = cb (.wrap "encoding JSON: %w" e)
    ∧ Handler.serve (fuel + 1) (Responder.JSON (NewErrorLoggingResponder l fn) code v) r s
        = fn r l (.wrap "encoding JSON: %w" e) s := by
  constructor
  · simp [Responder.JSON, hm, NewResponder, Responder.Error]
  · simp [Responder.JSON, hm, NewErrorLoggingResponder, Responder.Error,
      Handler.serve, Handler.run]

/-- C8 witness: a value json cannot serialize; the full run appends exactly
one wrapped error to the log and leaves headers, status and body untouched. -/
theorem C8_witness :
    marshal (.unsupported "chan") = .error (.str "json: unsupported type: chan")
    ∧ Responder.JSON (NewResponder (fun _ => Handler.mk (fun _ s => (s, none)))) 200
          (.unsupported "chan")
        = (fun _ => Handler.mk (fun _ s => (s, none)))
            (GoErr.wrap "encoding JSON: %w" (.str "json: unsupported type: chan"))
    ∧ Handler.serve (0 + 1)
        (Responder.JSON
          (NewErrorLoggingResponder 7 (fun _ _l e s => { s with errLog := s.errLog ++ [e] }))
          200 (.unsupported "chan"))
        { path := "/x", rawQuery := "" }
        { headers := [], status := none, body := [], errLog := [] }
      = (fun (_ : Request) (_l : Nat) (e : GoErr) (s : RespState) =>
            { s with errLog := s.errLog ++ [e] })
          ({ path := "/x", rawQuery := "" } : Request) 7
          (GoErr.wrap "encoding JSON: %w" (.str "json: unsupported type: chan"))
          { headers := [], status := none, body := [], errLog := [] } := by
  have h := C8_json_error_no_write (.unsupported "chan")
    (.str "json: unsupported type: chan") rfl 200
    (fun _ => Handler.mk (fun _ s => (s, none))) 7
    (fun _ l e s => { s with errLog := s.errLog ++ [e] })
    { path := "/x", rawQuery := "" }
    { headers := [], status := none, body := [], errLog := [] } 0
  exact ⟨rfl, h.1, h.2⟩

/-- A Go slice header: index of the backing array in the store, the offset
into it, the length, and the capacity (measured from the offset, as Go's
cap is). -/
structure GoSlice where
  arr : Nat
  off : Nat
  len : Nat
  cap : Nat
deriving DecidableEq

/-- The heap of backing arrays. Each array is a block of cells of fixed
extent; a cell is none until first written (Go zero-initializes; no claim
reads an unwritten cell's value). -/
abbrev Store (α : Type) : Type := List (List (Option α))

/-- Overwrite the cells of one array starting at pos. -/
def writeArr {α : Type} (a : List (Option α)) (pos : Nat) (xs : List (Option α)) :
    List (Option α) :=
  a.take pos ++ xs ++ a.drop (pos + xs.length)

/-- Write cells into array ai of the store starting at pos. -/
def storeWrite {α : Type} (st : Store α) (ai pos : Nat) (xs : List (Option α)) : Store α :=
  st.set ai (writeArr (st.getD ai []) pos xs)

/-- The cells a slice views. -/
def readSlice {α : Type} (st : Store α) (s : GoSlice) : List (Option α) :=
  ((st.getD s.arr []).drop s.off).take s.len

/-- Go make([]T, len, cap): allocate a fresh zeroed backing array. -/
def goMake {α : Type} (st : Store α) (len cap : Nat) : Store α × GoSlice :=
  (st ++ [List.replicate cap none], ⟨st.length, 0, len, cap⟩)

/-- Go copy(dst, src): copy min(len(dst), len(src)) cells into dst's view. -/
def goCopy {α : Type} (st : Store α) (dst src : GoSlice) : Store α :=
  storeWrite st dst.arr dst.off ((readSlice st src).take dst.len)

/-- Go append(s, xs...): write in place past the length when the capacity
suffices, else move the viewed cells to a fresh larger backing array. The
fresh capacity here is exactly the required length; Go may grow further,
but the growth amount changes no aliasing, since either way the result
lives in a new array disjoint from every existing slice. -/
def goAppend {α : Type} (st : Store α) (s : GoSlice) (xs : List α) : Store α × GoSlice :=
  if s.len + xs.length ≤ s.cap then
    (storeWrite st s.arr (s.off + s.len) (xs.map some),
     ⟨s.arr, s.off, s.len + xs.length, s.cap⟩)
  else
    (storeWrite (st ++ [List.replicate (s.len + xs.length) none]) st.length 0
       (readSlice st s ++ xs.map some),
     ⟨st.length, 0, s.len + xs.length, s.len + xs.length⟩)

/-- Router (lines 301-306). The shared mux and responder do not bear on the
middleware-ownership claims, so the embedded router keeps its path prefix
(field pfx; its source name is a keyword here) and its middleware slice.
Middleware values are abstract elements of the store. -/
structure Router where
  pfx : String
  mws : GoSlice
deriving DecidableEq

/-- Router.Group (lines 350-363): allocate a fresh slice of the parent's
length with capacity for the extra middlewares, copy the parent's list in,
then append the new middlewares. -/
def Router.Group {α : Type} (st : Store α) (ro : Router) (pf : String) (mws : List α) :
    Store α × Router :=
  let mk := goMake st ro.mws.len (ro.mws.len + mws.length)
  let st2 := goCopy mk.1 mk.2 ro.mws
  let ap := goAppend st2 mk.2 mws
  (ap.1, ⟨ro.pfx ++ "/" ++ goTrim pf '/', ap.2⟩)

/-- Router.Use (line 366): append to this router's own slice. -/
def Router.Use {α : Type} (st : Store α) (ro : Router) (mws : List α) :
    Store α × Router :=
  let ap := goAppend st ro.mws mws
  (ap.1, ⟨ro.pfx, ap.2⟩)

/-- A slice header is valid in a store: its array exists, its length is
within its capacity, and offset plus capacity fit inside the backing
array. -/
def validSlice {α : Type} (st : Store α) (s : GoSlice) : Prop :=
  s.arr < st.length ∧ s.len ≤ s.cap ∧ s.off + s.cap ≤ (st.getD s.arr []).length

theorem getD_append_lt {β : Type} (l : List β) (x d : β) (i : Nat) (h : i < l.length) :
    (l ++ [x]).getD i d = l.getD i d := by
  induction l generalizing i with
  | nil => simp at h
  | cons a t ih =>
    cases i with
    | zero => rfl
    | succ j =>
      simp only [List.cons_append, List.getD_cons_succ]
      exact ih j (by simpa using h)

theorem getD_append_len {β : Type} (l : List β) (x d : β) :
    (l ++ [x]).getD l.length d = x := by
  induction l with
  | nil => rfl
  | cons a t ih =>
    simpa only [List.cons_append, List.length_cons, List.getD_cons_succ] using ih

theorem getD_set_ne {β : Type} (l : List β) (i j : Nat) (a d : β) (h : i ≠ j) :
    (l.set j a).getD i d = l.getD i d := by
  induction l generalizing i j with
  | nil => rfl
  | cons b t ih =>
    cases j with
    | zero =>
      cases i with
      | zero => exact absurd rfl h
      | succ k => simp [List.getD_cons_succ]
    | succ j2 =>
      cases i with
      | zero => simp [List.getD_cons_zero]
      | succ k =>
        simp only [List.set_cons_succ, List.getD_cons_succ]
        exact ih k j2 (fun hh => h (by omega))

theorem getD_set_self {β : Type} (l : List β) (j : Nat) (a d : β) (h : j < l.length) :
    (l.set j a).getD j d = a := by
  induction l generalizing j with
  | nil => simp at h
  | cons b t ih =>
    cases j with
    | zero => rfl
    | succ j2 =>
      simp only [List.set_cons_succ, List.getD_cons_succ]
      exact ih j2 (by simpa using h)

theorem readSlice_set_ne {α : Type} (st : Store α) (ai : Nat) (a : List (Option α))
    (q : GoSlice) (h : q.arr ≠ ai) :
    readSlice (st.set ai a) q = readSlice st q := by
  unfold readSlice
  rw [getD_set_ne st q.arr ai a [] h]

theorem readSlice_append_lt {α : Type} (st : Store α) (a : List (Option α))
    (q : GoSlice) (h : q.arr < st.length) :
    readSlice (st ++ [a]) q = readSlice st q := by
  unfold readSlice
  rw [getD_append_lt st a [] q.arr h]

/-- The length of a valid slice whose readback is known. -/
theorem validSlice_len {α : Type} (st : Store α) (s : GoSlice) (P : List α)
    (hv : validSlice st s) (hread : readSlice st s = P.map some) :
    s.len = P.length := by
  obtain ⟨hva, hvl, hvc⟩ := hv
  have h1 := congrArg List.length hread
  simp only [readSlice, List.length_take, List.length_drop, List.length_map] at h1
  omega

/-- Normal form of Router.Group: the child's middlewares live in a single
fresh backing array holding the parent's cells followed by the appended
middlewares, and the parent's arrays are untouched. -/
theorem Group_normal_form {α : Type} (st : Store α) (p : Router) (P ms : List α) (gp : String)
    (hv : validSlice st p.mws) (hread : readSlice st p.mws = P.map some) :
    Router.Group st p gp ms
      = ((st ++ [List.replicate (P.length + ms.length) none]).set st.length
           ((P ++ ms).map some),
         ⟨p.pfx ++ "/" ++ goTrim gp '/',
          ⟨st.length, 0, P.length + ms.length, P.length + ms.length⟩⟩) := by
  have hva : p.mws.arr < st.length := hv.1
  have hlen : p.mws.len = P.length := validSlice_len st p.mws P hv hread
  unfold Router.Group goCopy goAppend goMake storeWrite
  simp only [hlen]
  rw [if_pos (Nat.le_refl _)]
  rw [readSlice_append_lt st _ p.mws hva, hread,
    List.take_of_length_le (by simp), getD_append_len]
  unfold writeArr
  simp only [List.take_zero, List.nil_append, List.length_map, Nat.zero_add,
    List.drop_replicate, Nat.add_sub_cancel_left]
  rw [getD_set_self _ _ _ _ (by simp)]
  rw [List.take_left' (by simp), List.drop_eq_nil_of_le (by simp),
    List.append_nil, ← List.map_append, List.set_set]

/-- Reading back after Router.Use on a router whose slice exactly fills its
own backing array holding Q: the updated router reads Q ++ extra, and any
slice over a different array is untouched. -/
theorem Use_reads {α : Type} (st : Store α) (pf : String) (a : Nat) (Q extra : List α)
    (q : GoSlice) (ha : a < st.length) (hcell : st.getD a [] = Q.map some)
    (hqa : q.arr ≠ a) (hqlt : q.arr < st.length) :
    readSlice (Router.Use st ⟨pf, ⟨a, 0, Q.length, Q.length⟩⟩ extra).1
        (Router.Use st ⟨pf, ⟨a, 0, Q.length, Q.length⟩⟩ extra).2.mws
      = (Q ++ extra).map some
    ∧ readSlice (Router.Use st ⟨pf, ⟨a, 0, Q.length, Q.length⟩⟩ extra).1 q
      = readSlice st q := by
  unfold Router.Use goAppend storeWrite
  dsimp only
  by_cases hx : extra = []
  · subst hx
    rw [if_pos (by simp)]
    dsimp only [List.map_nil]
    rw [hcell]
    unfold writeArr
    simp only [List.length_nil, List.length_map, Nat.add_zero, Nat.zero_add,
      List.append_nil, List.take_append_drop]
    constructor
    · simp only [readSlice]
      rw [getD_set_self _ _ _ _ ha, List.drop_zero,
        List.take_of_length_le (by simp)]
    · exact readSlice_set_ne st a _ q hqa
  · have hxlen : 0 < extra.length := List.length_pos.mpr hx
    have hni : ¬ (Q.length + extra.length ≤ Q.length) := by omega
    rw [if_neg hni]
    dsimp only
    have hrs : readSlice st ⟨a, 0, Q.length, Q.length⟩ = Q.map some := by
      simp only [readSlice]
      rw [hcell, List.drop_zero, List.take_of_length_le (by simp)]
    rw [hrs, getD_append_len]
    unfold writeArr
    simp only [List.take_zero, List.nil_append, List.length_append, List.length_map,
      Nat.zero_add, List.drop_replicate, Nat.sub_self, List.replicate_zero,
      List.append_nil]
    constructor
    · simp only [readSlice]
      rw [getD_set_self _ _ _ _ (by simp), List.drop_zero,
        List.take_of_length_le (by simp)]
      simp
    · rw [readSlice_set_ne (st ++ [List.replicate (Q.length + extra.length) none])
          st.length _ q (by omega),
        readSlice_append_lt st _ q hqlt]

/-- C3: Group gives the child an independent copy of the parent's
middleware list with the new middlewares appended, and a later Use on the
child appends only to the child's own list: after both operations the
parent's list still reads back exactly as before, while the child's reads
back as parent ++ group middlewares ++ used middlewares. -/
theorem C3_group_use_no_parent_mutation {α : Type} (st : Store α) (p : Router)
    (P ms extra : List α) (gp : String)
    (hv : validSlice st p.mws) (hread : readSlice st p.mws = P.map some) :
    readSlice (Router.Group st p gp ms).1 (Router.Group st p gp ms).2.mws
        = (P ++ ms).map some
    ∧ readSlice (Router.Group st p gp ms).1 p.mws = P.map some
    ∧ readSlice
        (Router.Use (Router.Group st p gp ms).1 (Router.Group st p gp ms).2 extra).1
        (Router.Use (Router.Group st p gp ms).1 (Router.Group st p gp ms).2 extra).2.mws
        = ((P ++ ms) ++ extra).map some
    ∧ readSlice
        (Router.Use (Router.Group st p gp ms).1 (Router.Group st p gp ms).2 extra).1
        p.mws = P.map some := by
  have hva : p.mws.arr < st.length := hv.1
  have hnf := Group_normal_form st p P ms gp hv hread
  rw [hnf]
  have hG1len : ((st ++ [List.replicate (P.length + ms.length) none]).set st.length
      ((P ++ ms).map some)).length = st.length + 1 := by
    simp
  have hGcell : ((st ++ [List.replicate (P.length + ms.length) none]).set st.length
      ((P ++ ms).map some)).getD st.length [] = (P ++ ms).map some := by
    rw [getD_set_self _ _ _ _ (by simp)]
  have hGpar : readSlice ((st ++ [List.replicate (P.length + ms.length) none]).set st.length
      ((P ++ ms).map some)) p.mws = P.map some := by
    rw [readSlice_set_ne (st ++ [List.replicate (P.length + ms.length) none]) st.length
        ((P ++ ms).map some) p.mws (by omega),
      readSlice_append_lt st _ p.mws hva, hread]
  have hUse := Use_reads ((st ++ [List.replicate (P.length + ms.length) none]).set st.length
      ((P ++ ms).map some)) (p.pfx ++ "/" ++ goTrim gp '/') st.length (P ++ ms) extra p.mws
      (by rw [hG1len]; omega) hGcell (by omega) (by rw [hG1len]; omega)
  simp only [List.length_append] at hUse
  refine ⟨?_, hGpar, hUse.1, hUse.2.trans hGpar⟩
  simp only [readSlice, hGcell, List.drop_zero]
  rw [List.take_of_length_le (by simp)]

/-- C3 witness: a parent whose single array holds [7]; Group appends 8 and
Use appends 9. The child reads [7, 8] and then [7, 8, 9] while the parent
reads [7] throughout. -/
theorem C3_witness :
    (validSlice ([[some 7]] : Store Nat) (Router.mk "" ⟨0, 0, 1, 1⟩).mws
      ∧ readSlice ([[some 7]] : Store Nat) (Router.mk "" ⟨0, 0, 1, 1⟩).mws = [7].map some)
    ∧ (readSlice (Router.Group ([[some 7]] : Store Nat) (Router.mk "" ⟨0, 0, 1, 1⟩) "v1" [8]).1
          (Router.Group ([[some 7]] : Store Nat) (Router.mk "" ⟨0, 0, 1, 1⟩) "v1" [8]).2.mws
        = ([7] ++ [8]).map some
      ∧ readSlice (Router.Group ([[some 7]] : Store Nat) (Router.mk "" ⟨0, 0, 1, 1⟩) "v1" [8]).1
          (Router.mk "" ⟨0, 0, 1, 1⟩).mws = [7].map some
      ∧ readSlice
          (Router.Use
            (Router.Group ([[some 7]] : Store Nat) (Router.mk "" ⟨0, 0, 1, 1⟩) "v1" [8]).1
            (Router.Group ([[some 7]] : Store Nat) (Router.mk "" ⟨0, 0, 1, 1⟩) "v1" [8]).2 [9]).1
          (Router.Use
            (Router.Group ([[some 7]] : Store Nat) (Router.mk "" ⟨0, 0, 1, 1⟩) "v1" [8]).1
            (Router.Group ([[some 7]] : Store Nat) (Router.mk "" ⟨0, 0, 1, 1⟩) "v1" [8]).2 [9]).2.mws
        = (([7] ++ [8]) ++ [9]).map some
      ∧ readSlice
          (Router.Use
            (Router.Group ([[some 7]] : Store Nat) (Router.mk "" ⟨0, 0, 1, 1⟩) "v1" [8]).1
            (Router.Group ([[some 7]] : Store Nat) (Router.mk "" ⟨0, 0, 1, 1⟩) "v1" [8]).2 [9]).1
          (Router.mk "" ⟨0, 0, 1, 1⟩).mws = [7].map some) :=
  ⟨⟨⟨by decide, by decide, by decide⟩, by decide⟩,
   C3_group_use_no_parent_mutation [[some 7]] (Router.mk "" ⟨0, 0, 1, 1⟩) [7] [8] [9] "v1"
     ⟨by decide, by decide, by decide⟩ (by decide)⟩

end Bazaar
